import Mathlib

/-!
# Verification of `bff.fancy.sliding_window`

Shallow embedding of the `sliding_window` generator from `bff/fancy.py`
(identical in both copies of the module present in the repository), together
with proofs about the windows it yields.

The Python function is a *generator function*: calling it executes none of its
body; the body — the dynamic type checks, the value checks and the `yield`s —
runs only once the returned generator is consumed.  We model this with a
two-stage semantics: `sliding_window` packages its arguments into a generator
object `SWGen`, and `SWGen.run` executes the body to exhaustion (what
`list(gen)` observes), returning either the raised error or the full list of
yielded windows.

Python arithmetic is modelled on `Int`: `int(x / y)` for the non-negative
operands appearing here is truncating division `Int.tdiv`, and `%` with a
positive right operand is `Int.emod`.  Python slicing (negative-index
wraparound, clamping to the sequence length) is modelled by `pyIdx`/`pySlice`.
-/

set_option autoImplicit false

namespace Bff

variable {α : Type}

/-- A Python object passed as the `sequence` argument of `sliding_window`:
either an object supporting iteration, `len` and slicing — modelled as the
list of its elements — or a non-iterable object (for which `iter(sequence)`
raises `TypeError`). -/
inductive PySequence (α : Type) where
  | iterable (l : List α)
  | notIterable
deriving DecidableEq

/-- A Python object passed as `window_size` or `step`: an `int`, or some
object that is not an instance of `int` (a float, a string, ...). -/
inductive PyArg where
  | int (i : Int)
  | nonInt
deriving DecidableEq

/-- The errors `sliding_window` can raise, one per `raise` statement in the
source, in source order:
* `notIterable`      — `TypeError('Sequence must by iterable.')`
* `stepNotInt`       — `TypeError('Step must be an integer.')`
* `windowSizeNotInt` — `TypeError('Window size must be an integer.')`
* `invalidWindowSize`— `ValueError('Window_size must be larger or equal than step and higher than 0.')`
* `invalidStep`      — `ValueError('Step must be higher than 0.')`
* `sequenceTooShort` — `ValueError('Length of sequence must be larger or equal than window_size.')` -/
inductive SWError where
  | notIterable
  | stepNotInt
  | windowSizeNotInt
  | invalidWindowSize
  | invalidStep
  | sequenceTooShort
deriving DecidableEq

/-- Python slice-endpoint normalisation for a sequence of length `n` (slice
step `1`): a negative endpoint counts from the end of the sequence, and
endpoints are clamped into `[0, n]`. -/
def pyIdx (n : Nat) (i : Int) : Nat :=
  if i < 0 then ((n : Int) + i).toNat else min i.toNat n

/-- Python `l[i:j]`. -/
def pySlice (l : List α) (i j : Int) : List α :=
  (l.take (pyIdx l.length j)).drop (pyIdx l.length i)

/-- Python `l[i:]`. -/
def pySliceFrom (l : List α) (i : Int) : List α :=
  l.drop (pyIdx l.length i)

/-- Python `range(0, stop, step)` for a positive `step`: the multiples
`0, step, 2*step, ...` strictly below `stop`; there are `⌈stop/step⌉` of
them. -/
def pyRange (stop step : Int) : List Int :=
  (List.range (if stop ≤ 0 then 0 else (stop - 1).toNat / step.toNat + 1)).map
    (fun (k : Nat) => (k : Int) * step)

/-- A generator object returned by calling `sliding_window(...)`: it holds the
arguments, and none of the body has run yet. -/
structure SWGen (α : Type) where
  sequence : PySequence α
  window_size : PyArg
  step : PyArg
deriving DecidableEq

/-- Calling `sliding_window(sequence, window_size, step)`.  A Python generator
function executes no body code at call time — it only packages its arguments
into a generator object — so invocation is total and can raise nothing. -/
def sliding_window (sequence : PySequence α) (window_size step : PyArg) :
    SWGen α :=
  ⟨sequence, window_size, step⟩

/-- The local `nb_chunks = int(((len(sequence) - window_size) / step) + 1)` of
the source.  `int(x)` truncates toward zero, hence `Int.tdiv` (the operands
reaching this line are non-negative, so truncation and floor agree). -/
def nb_chunks (n window_size step : Int) : Int :=
  (n - window_size).tdiv step + 1

/-- The local `mod = len(sequence) % window_size` of the source; Python `%`
with a positive right operand is `Int.emod`. -/
def mod (n window_size : Int) : Int :=
  n.emod window_size

/-- The local `start = len(sequence) - (window_size - step) - mod` of the
source. -/
def start (n window_size step : Int) : Int :=
  n - (window_size - step) - mod n window_size

/-- The windows yielded by the loop
`for i in range(0, nb_chunks * step, step): yield sequence[i:i+window_size]`. -/
def fullWindows (sequence : List α) (window_size step : Int) :
    List (List α) :=
  (pyRange (nb_chunks sequence.length window_size step * step) step).map
    (fun i => pySlice sequence i (i + window_size))

/-- The body of the generator after the dynamic type checks, for an iterable
`sequence` and `int` arguments `window_size` and `step`; transcribed from the
source:

```
if window_size < step or window_size <= 0:
    raise ValueError(...)
if step <= 0:
    raise ValueError(...)
if len(sequence) < window_size:
    raise ValueError(...)
nb_chunks = int(((len(sequence) - window_size) / step) + 1)
mod = len(sequence) % window_size
for i in range(0, nb_chunks * step, step):
    yield sequence[i:i+window_size]
if mod:
    start = len(sequence) - (window_size - step) - mod
    yield sequence[start:]
```
-/
def swBody (sequence : List α) (window_size step : Int) :
    Except SWError (List (List α)) :=
  if window_size < step ∨ window_size ≤ 0 then .error .invalidWindowSize
  else if step ≤ 0 then .error .invalidStep
  else if (sequence.length : Int) < window_size then .error .sequenceTooShort
  else if mod (sequence.length : Int) window_size ≠ 0 then
    .ok (fullWindows sequence window_size step ++
      [pySliceFrom sequence (start (sequence.length : Int) window_size step)])
  else
    .ok (fullWindows sequence window_size step)

/-- Running the generator to exhaustion (what `list(gen)` observes): the body
runs on the first `next`, performing the checks in source order — iterability
of `sequence`, `isinstance(step, int)`, `isinstance(window_size, int)`, then
the value checks — and then yields the windows.  The result is the raised
error or the list of all yielded windows. -/
def SWGen.run (g : SWGen α) : Except SWError (List (List α)) :=
  match g.sequence with
  | .notIterable => .error .notIterable
  | .iterable sequence =>
    match g.step with
    | .nonInt => .error .stepNotInt
    | .int step =>
      match g.window_size with
      | .nonInt => .error .windowSizeNotInt
      | .int window_size => swBody sequence window_size step

/-- The value of `list(sliding_window(l, window_size, step))` for an iterable sequence and
`int` arguments. -/
def slidingWindowRun (l : List α) (window_size step : Int) :
    Except SWError (List (List α)) :=
  (sliding_window (.iterable l) (.int window_size) (.int step)).run

/-- Whether the arguments of a generator satisfy every precondition checked by
the body. -/
def validArgs : SWGen α → Bool
  | ⟨.iterable l, .int window_size, .int step⟩ =>
      decide (0 < step) && decide (step ≤ window_size) &&
        decide (window_size ≤ (l.length : Int))
  | _ => false

/-- Index pairs `(start, stop)` of the full windows: the `k`-th full window is
`sequence[k*step : k*step + window_size]` for
`k < (n - window_size)/step + 1`. -/
def fullBounds (n window_size step : Nat) : List (Nat × Nat) :=
  (List.range ((n - window_size) / step + 1)).map
    (fun k => (k * step, k * step + window_size))

/-- Index pairs `(start, stop)` of all yielded windows: the full windows,
followed — when `n % window_size ≠ 0` — by the remainder window
`sequence[n - (window_size - step) - n % window_size : n]`. -/
def windowBounds (n window_size step : Nat) : List (Nat × Nat) :=
  fullBounds n window_size step ++
    (if n % window_size = 0 then []
     else [(n - (window_size - step) - n % window_size, n)])

/-- The slice of `l` at a `(start, stop)` pair of in-range indices. -/
def sliceAt (l : List α) (p : Nat × Nat) : List α :=
  (l.take p.2).drop p.1

/-- Reconstruction of a sequence from its windows, following the spec's
wording: the first `step` elements of each window, together with the remaining
tail of the final window — i.e. concatenate the `step`-element prefixes of all
windows but the last, then the last window whole. -/
def reconstruct (step : Nat) : List (List α) → List α
  | [] => []
  | [w] => w
  | w :: ws => w.take step ++ reconstruct step ws

/-! ## Cast lemmas relating the `Int` arithmetic of the body to `Nat` -/

theorem tdiv_natCast (a b : Nat) :
    (a : Int).tdiv (b : Int) = ((a / b : Nat) : Int) := rfl

theorem emod_natCast (a b : Nat) :
    (a : Int).emod (b : Int) = ((a % b : Nat) : Int) := rfl

theorem pyIdx_natCast (n a : Nat) (h : a ≤ n) : pyIdx n (a : Int) = a := by
  unfold pyIdx
  rw [if_neg (by omega), Int.toNat_natCast]
  omega

theorem pySlice_natCast (l : List α) (a b : Nat) (ha : a ≤ l.length)
    (hb : b ≤ l.length) :
    pySlice l (a : Int) (b : Int) = sliceAt l (a, b) := by
  unfold pySlice sliceAt
  rw [pyIdx_natCast _ _ ha, pyIdx_natCast _ _ hb]

theorem pySliceFrom_natCast (l : List α) (a : Nat) (h : a ≤ l.length) :
    pySliceFrom l (a : Int) = l.drop a := by
  unfold pySliceFrom
  rw [pyIdx_natCast _ _ h]

theorem pyRange_natCast (N st : Nat) (hst : 0 < st) (hN : 0 < N) :
    pyRange ((N * st : Nat) : Int) (st : Int) =
      (List.range N).map (fun k => ((k * st : Nat) : Int)) := by
  unfold pyRange
  have hpos : 0 < N * st := Nat.mul_pos hN hst
  rw [if_neg (by omega)]
  have h1 : ((N * st : Nat) : Int) - 1 = ((N * st - 1 : Nat) : Int) := by omega
  rw [h1, Int.toNat_natCast, Int.toNat_natCast]
  have h2 : (N * st - 1) / st + 1 = N := by
    obtain ⟨M, rfl⟩ : ∃ M, N = M + 1 := ⟨N - 1, by omega⟩
    have h3 : (M + 1) * st = st * M + st := by ring
    have h4 : (M + 1) * st - 1 = st - 1 + st * M := by omega
    rw [h4, Nat.add_mul_div_left _ _ hst, Nat.div_eq_of_lt (by omega)]
    omega
  rw [h2]
  apply List.map_congr_left
  intro k _
  push_cast
  ring

/-- For `0 < window_size ≤ n`, the remainder `n % window_size` is at most
`n - window_size`. -/
theorem mod_ws_bound (n ws : Nat) (_h0 : 0 < ws) (h : ws ≤ n) :
    n % ws + ws ≤ n := by
  have h1 : n % ws = (n - ws) % ws := Nat.mod_eq_sub_mod h
  have h2 : (n - ws) % ws ≤ n - ws := Nat.mod_le _ _
  omega

theorem mod_natCast (n ws : Nat) :
    mod (n : Int) (ws : Int) = ((n % ws : Nat) : Int) := by
  unfold mod
  exact emod_natCast n ws

theorem start_natCast (n ws st : Nat) (hst : 0 < st) (h2 : st ≤ ws)
    (h3 : ws ≤ n) :
    start (n : Int) (ws : Int) (st : Int) =
      ((n - (ws - st) - n % ws : Nat) : Int) := by
  unfold start
  rw [mod_natCast]
  have hb := mod_ws_bound n ws (by omega) h3
  omega

/-- Under validation, the remainder start index is at least `step` (hence at
least `1`), computed in the `Int` arithmetic of the body. -/
theorem start_ge (n ws st : Nat) (hst : 0 < st) (h2 : st ≤ ws)
    (h3 : ws ≤ n) :
    (st : Int) ≤ start (n : Int) (ws : Int) (st : Int) := by
  unfold start
  rw [mod_natCast]
  have hb := mod_ws_bound n ws (by omega) h3
  omega

/-- The full-window start index of remainder window `n - (ws - st) - n % ws`
stays at most `n`. -/
theorem start_le (n ws st : Nat) (_hst : 0 < st) (h2 : st ≤ ws) (h3 : ws ≤ n) :
    n - (ws - st) - n % ws ≤ n := by
  omega

/-- Every full-window start index `k * step` stays at most `n - window_size`,
so every full window lies fully within bounds. -/
theorem fullWindow_bound (n ws st : Nat) (_hst : 0 < st) (h3 : ws ≤ n)
    (k : Nat) (hk : k < (n - ws) / st + 1) :
    k * st + ws ≤ n := by
  have h5 : k * st ≤ ((n - ws) / st) * st :=
    Nat.mul_le_mul_right st (by omega)
  have h6 : ((n - ws) / st) * st ≤ n - ws := Nat.div_mul_le_self _ _
  omega

/-! ## The bridge: on validated input the run yields the slices at
`windowBounds` -/

/-- The loop's yields are exactly the slices at `fullBounds`. -/
theorem fullWindows_eq (l : List α) (ws st : Nat) (h1 : 0 < st)
    (h2 : st ≤ ws) (h3 : ws ≤ l.length) :
    fullWindows l (ws : Int) (st : Int) =
      (fullBounds l.length ws st).map (sliceAt l) := by
  unfold fullWindows fullBounds nb_chunks
  have hsub : (l.length : Int) - (ws : Int) = ((l.length - ws : Nat) : Int) :=
    by omega
  rw [hsub, tdiv_natCast]
  have hmul : ((((l.length - ws) / st : Nat) : Int) + 1) * (st : Int) =
      ((((l.length - ws) / st + 1) * st : Nat) : Int) := by push_cast; ring
  rw [hmul, pyRange_natCast _ _ h1 (Nat.succ_pos _)]
  rw [List.map_map, List.map_map]
  apply List.map_congr_left
  intro k hk
  simp only [List.mem_range] at hk
  have hb : k * st + ws ≤ l.length := fullWindow_bound l.length ws st h1 h3 k hk
  simp only [Function.comp]
  have hcast : ((k * st : Nat) : Int) + (ws : Int) =
      ((k * st + ws : Nat) : Int) := by push_cast; ring
  rw [hcast, pySlice_natCast l _ _ (by omega) hb]

/-- On validated input the body succeeds and yields exactly the slices of
the sequence at `windowBounds`. -/
theorem swBody_valid_eq (l : List α) (ws st : Nat) (h1 : 0 < st)
    (h2 : st ≤ ws) (h3 : ws ≤ l.length) :
    swBody l (ws : Int) (st : Int) =
      .ok ((windowBounds l.length ws st).map (sliceAt l)) := by
  unfold swBody
  rw [if_neg (by omega), if_neg (by omega), if_neg (by omega)]
  rw [mod_natCast]
  unfold windowBounds
  by_cases hm : l.length % ws = 0
  · rw [if_neg (by omega), if_pos hm, List.append_nil]
    exact congrArg Except.ok (fullWindows_eq l ws st h1 h2 h3)
  · rw [if_pos (by omega), if_neg hm, List.map_append]
    refine congrArg Except.ok ?_
    rw [fullWindows_eq l ws st h1 h2 h3]
    refine congrArg (_ ++ ·) ?_
    rw [start_natCast l.length ws st h1 h2 h3,
      pySliceFrom_natCast l _ (start_le l.length ws st h1 h2 h3)]
    unfold sliceAt
    simp only [List.map_cons, List.map_nil, List.take_length]

/-- On validated input, `list(sliding_window(l, window_size, step))` succeeds
and is exactly the list of slices of `l` at `windowBounds`. -/
theorem slidingWindowRun_valid (l : List α) (ws st : Nat) (h1 : 0 < st)
    (h2 : st ≤ ws) (h3 : ws ≤ l.length) :
    slidingWindowRun l (ws : Int) (st : Int) =
      .ok ((windowBounds l.length ws st).map (sliceAt l)) :=
  swBody_valid_eq l ws st h1 h2 h3

/-! ## Structural lemmas for reconstruction and coverage -/

/-- Taking the `step`-prefix of a window of nominal length `window_size ≥ step`
at start `a` is the `step`-prefix of `l.drop a`. -/
theorem window_take_step (l : List α) (a ws st : Nat) (h : st ≤ ws) :
    (sliceAt l (a, a + ws)).take st = (l.drop a).take st := by
  unfold sliceAt
  rw [List.drop_take, List.take_take]
  have h5 : a + ws - a = ws := by omega
  rw [h5, min_eq_left h]

/-- Concatenating the `step`-prefixes of `N` windows starting at
`0, step, 2*step, ...` gives the `N*step`-prefix of the sequence. -/
theorem flatten_take_chunks (l : List α) (st : Nat) (N : Nat) :
    ((List.range N).map (fun k => (l.drop (k * st)).take st)).flatten =
      l.take (N * st) := by
  induction N with
  | zero => simp
  | succ M ih =>
    rw [List.range_succ, List.map_append, List.flatten_append, ih]
    have h5 : (M + 1) * st = M * st + st := by ring
    rw [h5, List.take_add]
    simp

/-- The value of `reconstruct` over a non-empty window list with an explicit last window:
the `step`-prefixes of the initial windows, then the last window whole. -/
theorem reconstruct_concat (st : Nat) (F : List (List α)) (w : List α) :
    reconstruct st (F ++ [w]) = (F.map (fun x => x.take st)).flatten ++ w := by
  induction F with
  | nil => simp [reconstruct]
  | cons x F ih =>
    cases F with
    | nil => simp [reconstruct]
    | cons y F2 =>
      simp only [List.cons_append] at ih ⊢
      rw [reconstruct]
      · rw [ih]
        simp only [List.map_cons, List.flatten_cons, List.append_assoc]
      · simp

/-! ## The claims -/

/-- C1: for every valid input (0 < step ≤ window_size ≤ n, n = length of the
sequence) with `mod = n % window_size`, the run yields the slices of the
sequence at `windowBounds`; when `mod ≠ 0` these are the full windows followed
by exactly one final remainder window, the slice with start index
`n - (window_size - step) - mod` and end index `n`; when `mod = 0` no extra
window is yielded — the remainder decision depends on `n % window_size`. -/
theorem c1_remainder_slice (l : List α) (ws st : Nat) (h1 : 0 < st)
    (h2 : st ≤ ws) (h3 : ws ≤ l.length) :
    slidingWindowRun l (ws : Int) (st : Int) =
      .ok ((windowBounds l.length ws st).map (sliceAt l)) ∧
    (l.length % ws ≠ 0 →
      windowBounds l.length ws st = fullBounds l.length ws st ++
        [(l.length - (ws - st) - l.length % ws, l.length)]) ∧
    (l.length % ws = 0 →
      windowBounds l.length ws st = fullBounds l.length ws st) := by
  refine ⟨slidingWindowRun_valid l ws st h1 h2 h3, ?_, ?_⟩
  · intro hm
    unfold windowBounds
    rw [if_neg hm]
  · intro hm
    unfold windowBounds
    rw [if_pos hm, List.append_nil]

theorem c1_remainder_slice_witness :
    0 < 5 ∧ 5 ≤ 6 ∧ 6 ≤ (List.range 9).length ∧
    (slidingWindowRun (List.range 9) ((6 : Nat) : Int) ((5 : Nat) : Int) =
      .ok ((windowBounds (List.range 9).length 6 5).map
        (sliceAt (List.range 9))) ∧
    ((List.range 9).length % 6 ≠ 0 →
      windowBounds (List.range 9).length 6 5 =
        fullBounds (List.range 9).length 6 5 ++
          [((List.range 9).length - (6 - 5) - (List.range 9).length % 6,
            (List.range 9).length)]) ∧
    ((List.range 9).length % 6 = 0 →
      windowBounds (List.range 9).length 6 5 =
        fullBounds (List.range 9).length 6 5)) :=
  ⟨by decide, by decide, by decide,
    c1_remainder_slice (List.range 9) 6 5 (by decide) (by decide) (by decide)⟩

/-- C2 (code bug): on the sequence `range(11)` with `window_size = 6`,
`step = 1` — a valid input — the run yields six full windows of length 6 and
then a final window of length 10 > window_size, contradicting both the claim
(last window length at most `window_size`) and the function's own docstring
("the remainder ... will be smaller than the other windows"). -/
theorem c2_last_window_length_bug :
    (slidingWindowRun (List.range 11) 6 1).map (List.map List.length) =
      .ok [6, 6, 6, 6, 6, 6, 10] ∧ ¬ (10 ≤ 6) :=
  ⟨rfl, by decide⟩

/-- C4 (counterexample): invoking `sliding_window` on a non-iterable sequence
raises nothing — being a generator function, the call merely packages its
arguments into a generator object — and the `TypeError` surfaces only when
the generator is consumed.  The claim that the failure is observed at the
moment of invocation is therefore false. -/
theorem c4_lazy_validation_counterexample :
    sliding_window (α := Nat) .notIterable (.int 2) (.int 1) =
      ⟨.notIterable, .int 2, .int 1⟩ ∧
    (sliding_window (α := Nat) .notIterable (.int 2) (.int 1)).run =
      .error .notIterable :=
  ⟨rfl, rfl⟩

/-- C4 (amended): invocation always succeeds, returning a generator; on any
input violating a precondition, the *corresponding* error — determined by the
violated check, in the source's check order — is raised when the generator is
first consumed, before any window is produced: a non-iterable sequence gives
`notIterable`; otherwise a non-`int` step gives `stepNotInt`; otherwise a
non-`int` window size gives `windowSizeNotInt`; otherwise
`window_size < step ∨ window_size ≤ 0` gives `invalidWindowSize`; otherwise
`step ≤ 0` gives `invalidStep`; otherwise `len(sequence) < window_size` gives
`sequenceTooShort` — and the run returns that error, yielding no windows. -/
theorem c4_error_on_first_consumption (seq : PySequence α) (ws st : PyArg)
    (h : validArgs (sliding_window seq ws st) = false) :
    sliding_window seq ws st = ⟨seq, ws, st⟩ ∧
    (∃ e, (sliding_window seq ws st).run = .error e) ∧
    (seq = .notIterable →
      (sliding_window seq ws st).run = .error .notIterable) ∧
    (∀ l, seq = .iterable l → st = .nonInt →
      (sliding_window seq ws st).run = .error .stepNotInt) ∧
    (∀ l stv, seq = .iterable l → st = .int stv → ws = .nonInt →
      (sliding_window seq ws st).run = .error .windowSizeNotInt) ∧
    (∀ l wsv stv, seq = .iterable l → ws = .int wsv → st = .int stv →
      ((wsv < stv ∨ wsv ≤ 0) →
        (sliding_window seq ws st).run = .error .invalidWindowSize) ∧
      (¬ (wsv < stv ∨ wsv ≤ 0) → stv ≤ 0 →
        (sliding_window seq ws st).run = .error .invalidStep) ∧
      (¬ (wsv < stv ∨ wsv ≤ 0) → ¬ (stv ≤ 0) → (l.length : Int) < wsv →
        (sliding_window seq ws st).run = .error .sequenceTooShort)) := by
  cases seq with
  | notIterable =>
    refine ⟨rfl, ⟨_, rfl⟩, fun _ => rfl, ?_, ?_, ?_⟩
    · exact fun _ hl => nomatch hl
    · exact fun _ _ hl => nomatch hl
    · exact fun _ _ _ hl => nomatch hl
  | iterable l =>
    cases st with
    | nonInt =>
      refine ⟨rfl, ⟨_, rfl⟩, ?_, ?_, ?_, ?_⟩
      · exact fun hseq => nomatch hseq
      · exact fun _ _ _ => rfl
      · exact fun _ _ _ hst => nomatch hst
      · exact fun _ _ _ _ _ hst => nomatch hst
    | int stv =>
      cases ws with
      | nonInt =>
        refine ⟨rfl, ⟨_, rfl⟩, ?_, ?_, ?_, ?_⟩
        · exact fun hseq => nomatch hseq
        · exact fun _ _ hst => nomatch hst
        · exact fun _ _ _ _ _ => rfl
        · exact fun _ _ _ _ hws => nomatch hws
      | int wsv =>
        simp only [sliding_window, validArgs, Bool.and_eq_false_iff,
          decide_eq_false_iff_not] at h
        refine ⟨rfl, ?_, ?_, ?_, ?_, ?_⟩
        · show ∃ e, swBody l wsv stv = .error e
          unfold swBody
          split_ifs with hA hB hC hD
          · exact ⟨_, rfl⟩
          · exact ⟨_, rfl⟩
          · exact ⟨_, rfl⟩
          · exfalso; omega
          · exfalso; omega
        · exact fun hseq => nomatch hseq
        · exact fun _ _ hst => nomatch hst
        · exact fun _ _ _ _ hws => nomatch hws
        · intro l2 wsv2 stv2 hl hws hst
          injection hl with hl2
          injection hws with hws2
          injection hst with hst2
          subst hl2
          subst hws2
          subst hst2
          refine ⟨?_, ?_, ?_⟩
          · intro hcond
            show swBody l wsv stv = _
            unfold swBody
            rw [if_pos hcond]
          · intro hcond hstep
            show swBody l wsv stv = _
            unfold swBody
            rw [if_neg hcond, if_pos hstep]
          · intro hcond hstep hlen
            show swBody l wsv stv = _
            unfold swBody
            rw [if_neg hcond, if_neg hstep, if_pos hlen]

theorem c4_error_on_first_consumption_witness :
    validArgs (sliding_window (.iterable ([0, 1, 2] : List Nat)) (.int 2)
      (.int 0)) = false ∧
    (sliding_window (.iterable ([0, 1, 2] : List Nat)) (.int 2) (.int 0) =
      ⟨.iterable [0, 1, 2], .int 2, .int 0⟩ ∧
    (∃ e, (sliding_window (.iterable ([0, 1, 2] : List Nat)) (.int 2)
      (.int 0)).run = .error e) ∧
    ((.iterable [0, 1, 2] : PySequence Nat) = .notIterable →
      (sliding_window (.iterable ([0, 1, 2] : List Nat)) (.int 2)
        (.int 0)).run = .error .notIterable) ∧
    (∀ l, (.iterable [0, 1, 2] : PySequence Nat) = .iterable l →
      (.int 0 : PyArg) = .nonInt →
      (sliding_window (.iterable ([0, 1, 2] : List Nat)) (.int 2)
        (.int 0)).run = .error .stepNotInt) ∧
    (∀ l stv, (.iterable [0, 1, 2] : PySequence Nat) = .iterable l →
      (.int 0 : PyArg) = .int stv → (.int 2 : PyArg) = .nonInt →
      (sliding_window (.iterable ([0, 1, 2] : List Nat)) (.int 2)
        (.int 0)).run = .error .windowSizeNotInt) ∧
    (∀ l wsv stv, (.iterable [0, 1, 2] : PySequence Nat) = .iterable l →
      (.int 2 : PyArg) = .int wsv → (.int 0 : PyArg) = .int stv →
      ((wsv < stv ∨ wsv ≤ 0) →
        (sliding_window (.iterable ([0, 1, 2] : List Nat)) (.int 2)
          (.int 0)).run = .error .invalidWindowSize) ∧
      (¬ (wsv < stv ∨ wsv ≤ 0) → stv ≤ 0 →
        (sliding_window (.iterable ([0, 1, 2] : List Nat)) (.int 2)
          (.int 0)).run = .error .invalidStep) ∧
      (¬ (wsv < stv ∨ wsv ≤ 0) → ¬ (stv ≤ 0) → (l.length : Int) < wsv →
        (sliding_window (.iterable ([0, 1, 2] : List Nat)) (.int 2)
          (.int 0)).run = .error .sequenceTooShort))) :=
  ⟨rfl,
    c4_error_on_first_consumption (.iterable [0, 1, 2]) (.int 2) (.int 0) rfl⟩

/-- C8 (counterexample): on the iterable `[0, 1]` with `window_size = 0` and
`step = -1` — so `step ≤ 0` — the raised error is `invalidWindowSize`, not
`invalidStep`: the window-size check precedes the step check. -/
theorem c8_invalid_step_counterexample :
    (sliding_window (.iterable ([0, 1] : List Nat)) (.int 0)
      (.int (-1))).run = .error .invalidWindowSize ∧
    SWError.invalidWindowSize ≠ SWError.invalidStep ∧ (-1 : Int) ≤ 0 :=
  ⟨rfl, by decide, by decide⟩

/-- C8 (amended): for an iterable sequence and `int` arguments, the run fails
with `invalidStep` exactly when `step ≤ 0` **and** `0 < window_size` (the
window-size check `window_size < step or window_size <= 0` takes precedence;
with `step ≤ 0`, `window_size < step` cannot hold once `0 < window_size`). -/
theorem c8_invalid_step_precedence (l : List α) (ws st : Int) :
    ((sliding_window (.iterable l) (.int ws) (.int st)).run =
      .error .invalidStep) ↔ (st ≤ 0 ∧ 0 < ws) := by
  show (swBody l ws st = .error .invalidStep) ↔ _
  unfold swBody
  split_ifs with hA hB hC hD
  · exact iff_of_false (by simp) (by omega)
  · exact iff_of_true rfl ⟨hB, by omega⟩
  · exact iff_of_false (by simp) (by omega)
  · exact iff_of_false (by simp) (by omega)
  · exact iff_of_false (by simp) (by omega)

/-- C10: on the valid input `range(6)` with `window_size = 4`, `step = 2`
(`0 < 2 ≤ 4 ≤ 6`), the remainder window has the same start and end indices
`(2, 6)` as the last full window, so the identical slice is yielded twice in a
row — windows are not deduplicated. -/
theorem c10_duplicate_window :
    slidingWindowRun (List.range 6) 4 2 =
      .ok [[0, 1, 2, 3], [2, 3, 4, 5], [2, 3, 4, 5]] ∧
    windowBounds 6 4 2 = [(0, 4), (2, 6), (2, 6)] ∧
    0 < 2 ∧ 2 ≤ 4 ∧ 4 ≤ (List.range 6).length :=
  ⟨rfl, by decide, by decide, by decide, by decide⟩

/-- C6: for every valid input, before any remainder window the run yields
exactly `(n - window_size)/step + 1` full windows, the `k`-th being the slice
`sequence[k*step : k*step + window_size]`, in strictly increasing offset
order, each lying fully within bounds. -/
theorem c6_full_windows (l : List α) (ws st : Nat) (h1 : 0 < st)
    (h2 : st ≤ ws) (h3 : ws ≤ l.length) :
    slidingWindowRun l (ws : Int) (st : Int) =
      .ok ((windowBounds l.length ws st).map (sliceAt l)) ∧
    (windowBounds l.length ws st).take ((l.length - ws) / st + 1) =
      (List.range ((l.length - ws) / st + 1)).map
        (fun k => (k * st, k * st + ws)) ∧
    (∀ k < (l.length - ws) / st + 1, k * st + ws ≤ l.length) ∧
    List.Pairwise (· < ·)
      (((windowBounds l.length ws st).take ((l.length - ws) / st + 1)).map
        Prod.fst) := by
  have htake : (windowBounds l.length ws st).take ((l.length - ws) / st + 1) =
      fullBounds l.length ws st := by
    unfold windowBounds
    exact List.take_left' (by simp [fullBounds])
  refine ⟨slidingWindowRun_valid l ws st h1 h2 h3, ?_, ?_, ?_⟩
  · rw [htake]; rfl
  · intro k hk
    exact fullWindow_bound l.length ws st h1 h3 k hk
  · rw [htake]
    unfold fullBounds
    rw [List.map_map]
    refine List.Pairwise.map _ ?_ (List.pairwise_lt_range _)
    intro a b hab
    exact (Nat.mul_lt_mul_right h1).mpr hab

theorem c6_full_windows_witness :
    0 < 2 ∧ 2 ≤ 4 ∧ 4 ≤ (List.range 6).length ∧
    (slidingWindowRun (List.range 6) ((4 : Nat) : Int) ((2 : Nat) : Int) =
      .ok ((windowBounds (List.range 6).length 4 2).map
        (sliceAt (List.range 6))) ∧
    (windowBounds (List.range 6).length 4 2).take
        (((List.range 6).length - 4) / 2 + 1) =
      (List.range (((List.range 6).length - 4) / 2 + 1)).map
        (fun k => (k * 2, k * 2 + 4)) ∧
    (∀ k < ((List.range 6).length - 4) / 2 + 1,
      k * 2 + 4 ≤ (List.range 6).length) ∧
    List.Pairwise (· < ·)
      (((windowBounds (List.range 6).length 4 2).take
        (((List.range 6).length - 4) / 2 + 1)).map Prod.fst)) :=
  ⟨by decide, by decide, by decide,
    c6_full_windows (List.range 6) 4 2 (by decide) (by decide) (by decide)⟩

/-- C9: for every valid input, every slice index of the body is safe: the
remainder start `n - (window_size - step) - n % window_size`, computed in the
`Int` arithmetic of the body, is at least 1; every full-window start `k*step`
is non-negative with `k*step + window_size ≤ n`; and every yielded window's
end index is at most `n` — so Python's negative-index wraparound can never
occur. -/
theorem c9_slice_indices_safe (l : List α) (ws st : Nat) (h1 : 0 < st)
    (h2 : st ≤ ws) (h3 : ws ≤ l.length) :
    slidingWindowRun l (ws : Int) (st : Int) =
      .ok ((windowBounds l.length ws st).map (sliceAt l)) ∧
    1 ≤ start (l.length : Int) (ws : Int) (st : Int) ∧
    (∀ k < (l.length - ws) / st + 1,
      (0 : Int) ≤ ((k * st : Nat) : Int) ∧
      ((k * st : Nat) : Int) + (ws : Int) ≤ (l.length : Int)) ∧
    (∀ p ∈ windowBounds l.length ws st, p.2 ≤ l.length) := by
  refine ⟨slidingWindowRun_valid l ws st h1 h2 h3, ?_, ?_, ?_⟩
  · have h5 := start_ge l.length ws st h1 h2 h3
    omega
  · intro k hk
    have h5 := fullWindow_bound l.length ws st h1 h3 k hk
    exact ⟨Int.natCast_nonneg _, by omega⟩
  · intro p hp
    unfold windowBounds at hp
    rcases List.mem_append.mp hp with hfull | hrem
    · unfold fullBounds at hfull
      rcases List.mem_map.mp hfull with ⟨k, hk, rfl⟩
      simp only [List.mem_range] at hk
      exact fullWindow_bound l.length ws st h1 h3 k hk
    · by_cases hm : l.length % ws = 0
      · rw [if_pos hm] at hrem
        simp at hrem
      · rw [if_neg hm] at hrem
        simp only [List.mem_singleton] at hrem
        subst hrem
        exact le_refl _

theorem c9_slice_indices_safe_witness :
    0 < 2 ∧ 2 ≤ 3 ∧ 3 ≤ (List.range 7).length ∧
    (slidingWindowRun (List.range 7) ((3 : Nat) : Int) ((2 : Nat) : Int) =
      .ok ((windowBounds (List.range 7).length 3 2).map
        (sliceAt (List.range 7))) ∧
    1 ≤ start ((List.range 7).length : Int) ((3 : Nat) : Int)
      ((2 : Nat) : Int) ∧
    (∀ k < ((List.range 7).length - 3) / 2 + 1,
      (0 : Int) ≤ ((k * 2 : Nat) : Int) ∧
      ((k * 2 : Nat) : Int) + ((3 : Nat) : Int) ≤
        ((List.range 7).length : Int)) ∧
    (∀ p ∈ windowBounds (List.range 7).length 3 2, p.2 ≤
      (List.range 7).length)) :=
  ⟨by decide, by decide, by decide,
    c9_slice_indices_safe (List.range 7) 3 2 (by decide) (by decide)
      (by decide)⟩

/-- C5 (counterexample): on the valid input `range(11)`, `window_size = 6`,
`step = 1`, the yielded start offsets are `0,1,2,3,4,5,1`: not strictly
increasing, and the remainder window's start offset 1 is *smaller* than the
last full window's start offset 5 — refuting the claimed ordering
guarantee. -/
theorem c5_order_counterexample :
    slidingWindowRun (List.range 11) 6 1 =
      .ok ((windowBounds 11 6 1).map (sliceAt (List.range 11))) ∧
    (windowBounds 11 6 1).map Prod.fst = [0, 1, 2, 3, 4, 5, 1] ∧
    ¬ List.Pairwise (· < ·) ((windowBounds 11 6 1).map Prod.fst) ∧
    (fullBounds 11 6 1).getLast? = some (5, 11) ∧
    (windowBounds 11 6 1).getLast? = some (1, 11) ∧ ¬ (5 ≤ 1) :=
  ⟨rfl, by decide, by decide, by decide, by decide, by decide⟩

/-- C5 (amended): the *full* windows are yielded in strictly increasing
start-offset order; the remainder window (when present) is last and its end
offset equals `n`; and its start offset is at least the last full window's
start offset whenever `n % window_size ≤ step` (in general it can be
smaller). -/
theorem c5_order_amended (l : List α) (ws st : Nat) (h1 : 0 < st)
    (h2 : st ≤ ws) (h3 : ws ≤ l.length) :
    slidingWindowRun l (ws : Int) (st : Int) =
      .ok ((windowBounds l.length ws st).map (sliceAt l)) ∧
    List.Pairwise (· < ·) ((fullBounds l.length ws st).map Prod.fst) ∧
    (l.length % ws ≠ 0 → (windowBounds l.length ws st).getLast? =
      some (l.length - (ws - st) - l.length % ws, l.length)) ∧
    (l.length % ws ≠ 0 → l.length % ws ≤ st →
      ((l.length - ws) / st) * st ≤
        l.length - (ws - st) - l.length % ws) := by
  refine ⟨slidingWindowRun_valid l ws st h1 h2 h3, ?_, ?_, ?_⟩
  · unfold fullBounds
    rw [List.map_map]
    refine List.Pairwise.map _ ?_ (List.pairwise_lt_range _)
    intro a b hab
    exact (Nat.mul_lt_mul_right h1).mpr hab
  · intro hm
    unfold windowBounds
    rw [if_neg hm, List.getLast?_concat]
  · intro hm hle
    have e2 : ((l.length - ws) / st) * st + (l.length - ws) % st =
        l.length - ws := by
      rw [Nat.mul_comm]
      exact Nat.div_add_mod _ _
    have hr : (l.length - ws) % st < st := Nat.mod_lt _ h1
    have hb := mod_ws_bound l.length ws (by omega) h3
    omega

theorem c5_order_amended_witness :
    0 < 2 ∧ 2 ≤ 4 ∧ 4 ≤ (List.range 10).length ∧
    (slidingWindowRun (List.range 10) ((4 : Nat) : Int) ((2 : Nat) : Int) =
      .ok ((windowBounds (List.range 10).length 4 2).map
        (sliceAt (List.range 10))) ∧
    List.Pairwise (· < ·)
      ((fullBounds (List.range 10).length 4 2).map Prod.fst) ∧
    ((List.range 10).length % 4 ≠ 0 →
      (windowBounds (List.range 10).length 4 2).getLast? =
        some ((List.range 10).length - (4 - 2) - (List.range 10).length % 4,
          (List.range 10).length)) ∧
    ((List.range 10).length % 4 ≠ 0 → (List.range 10).length % 4 ≤ 2 →
      (((List.range 10).length - 4) / 2) * 2 ≤
        (List.range 10).length - (4 - 2) - (List.range 10).length % 4)) :=
  ⟨by decide, by decide, by decide,
    c5_order_amended (List.range 10) 4 2 (by decide) (by decide) (by decide)⟩

/-- C3 (counterexample): on the valid input `range(8)`, `window_size = 4`,
`step = 3`, the run yields only the windows with bounds `(0,4)` and `(3,7)`
(since `8 % 4 = 0` no remainder window is produced), so index 7 of the input
lies in no yielded window — coverage fails. -/
theorem c3_coverage_counterexample :
    slidingWindowRun (List.range 8) 4 3 =
      .ok ((windowBounds 8 4 3).map (sliceAt (List.range 8))) ∧
    windowBounds 8 4 3 = [(0, 4), (3, 7)] ∧
    (∀ p ∈ windowBounds 8 4 3, ¬ (p.1 ≤ 7 ∧ 7 < p.2)) ∧
    7 < (List.range 8).length ∧ 0 < 3 ∧ 3 ≤ 4 ∧ 4 ≤ (List.range 8).length :=
  ⟨rfl, by decide, by decide, by decide, by decide, by decide, by decide⟩

/-- C3 (amended): coverage holds under the additional hypothesis
`n % window_size = (n - window_size) % step` (true in particular whenever
`step` divides `n - window_size` and `window_size` divides `n`, and in every
example of the repository's test-suite): every index `i < n` lies inside at
least one yielded window. -/
theorem c3_coverage_amended (l : List α) (ws st : Nat) (h1 : 0 < st)
    (h2 : st ≤ ws) (h3 : ws ≤ l.length)
    (hmr : l.length % ws = (l.length - ws) % st) :
    slidingWindowRun l (ws : Int) (st : Int) =
      .ok ((windowBounds l.length ws st).map (sliceAt l)) ∧
    ∀ i < l.length, ∃ p ∈ windowBounds l.length ws st,
      p.1 ≤ i ∧ i < p.2 := by
  refine ⟨slidingWindowRun_valid l ws st h1 h2 h3, ?_⟩
  intro i hi
  have e2 : ((l.length - ws) / st) * st + (l.length - ws) % st =
      l.length - ws := by
    rw [Nat.mul_comm]
    exact Nat.div_add_mod _ _
  have hr : (l.length - ws) % st < st := Nat.mod_lt _ h1
  have hb := mod_ws_bound l.length ws (by omega) h3
  have e4 : (i / st) * st + i % st = i := by
    rw [Nat.mul_comm]
    exact Nat.div_add_mod _ _
  have hi4 : i % st < st := Nat.mod_lt _ h1
  by_cases hcase : i < ((l.length - ws) / st) * st + ws
  · by_cases hk2 : i / st ≤ (l.length - ws) / st
    · refine ⟨(i / st * st, i / st * st + ws), ?_, ?_, ?_⟩
      · unfold windowBounds
        refine List.mem_append.mpr (Or.inl ?_)
        unfold fullBounds
        exact List.mem_map.mpr ⟨i / st, List.mem_range.mpr (by omega), rfl⟩
      · omega
      · omega
    · have h5 : ((l.length - ws) / st + 1) * st ≤ (i / st) * st :=
        Nat.mul_le_mul_right st (by omega)
      have h6 : ((l.length - ws) / st + 1) * st =
          ((l.length - ws) / st) * st + st := by ring
      refine ⟨(((l.length - ws) / st) * st,
        ((l.length - ws) / st) * st + ws), ?_, ?_, ?_⟩
      · unfold windowBounds
        refine List.mem_append.mpr (Or.inl ?_)
        unfold fullBounds
        exact List.mem_map.mpr ⟨(l.length - ws) / st,
          List.mem_range.mpr (by omega), rfl⟩
      · omega
      · omega
  · have hrne : (l.length - ws) % st ≠ 0 := by omega
    have hmne : l.length % ws ≠ 0 := by omega
    refine ⟨(l.length - (ws - st) - l.length % ws, l.length), ?_, ?_, hi⟩
    · unfold windowBounds
      refine List.mem_append.mpr (Or.inr ?_)
      rw [if_neg hmne]
      exact List.mem_singleton.mpr rfl
    · omega

theorem c3_coverage_amended_witness :
    0 < 4 ∧ 4 ≤ 6 ∧ 6 ≤ (List.range 8).length ∧
    (List.range 8).length % 6 = ((List.range 8).length - 6) % 4 ∧
    (slidingWindowRun (List.range 8) ((6 : Nat) : Int) ((4 : Nat) : Int) =
      .ok ((windowBounds (List.range 8).length 6 4).map
        (sliceAt (List.range 8))) ∧
    ∀ i < (List.range 8).length, ∃ p ∈ windowBounds (List.range 8).length 6 4,
      p.1 ≤ i ∧ i < p.2) :=
  ⟨by decide, by decide, by decide, by decide,
    c3_coverage_amended (List.range 8) 6 4 (by decide) (by decide)
      (by decide) (by decide)⟩

/-- C7 (counterexample): on the valid input `range(8)`, `window_size = 4`,
`step = 3`, the yielded windows are `[0,1,2,3]` and `[3,4,5,6]`;
concatenating the step-prefix of the first with the whole last window gives
`[0,1,2,3,4,5,6]`, which is not the original sequence (element 7 is lost) —
reconstruction fails. -/
theorem c7_reconstruct_counterexample :
    slidingWindowRun (List.range 8) 4 3 = .ok [[0, 1, 2, 3], [3, 4, 5, 6]] ∧
    reconstruct 3 [[0, 1, 2, 3], [3, 4, 5, 6]] = [0, 1, 2, 3, 4, 5, 6] ∧
    ([0, 1, 2, 3, 4, 5, 6] : List Nat) ≠ List.range 8 :=
  ⟨rfl, by decide, by decide⟩

/-- C7 (amended): reconstruction — concatenating the `step`-prefix of every
window but the last with the last window whole — returns the original
sequence under the additional hypothesis
`n % window_size = (n - window_size) % step` (true in every example of the
repository's test-suite). -/
theorem c7_reconstruct_amended (l : List α) (ws st : Nat) (h1 : 0 < st)
    (h2 : st ≤ ws) (h3 : ws ≤ l.length)
    (hmr : l.length % ws = (l.length - ws) % st) :
    slidingWindowRun l (ws : Int) (st : Int) =
      .ok ((windowBounds l.length ws st).map (sliceAt l)) ∧
    reconstruct st ((windowBounds l.length ws st).map (sliceAt l)) = l := by
  refine ⟨slidingWindowRun_valid l ws st h1 h2 h3, ?_⟩
  have e2 : ((l.length - ws) / st) * st + (l.length - ws) % st =
      l.length - ws := by
    rw [Nat.mul_comm]
    exact Nat.div_add_mod _ _
  have hb := mod_ws_bound l.length ws (by omega) h3
  by_cases hm : l.length % ws = 0
  · unfold windowBounds
    rw [if_pos hm, List.append_nil]
    unfold fullBounds
    rw [List.range_succ, List.map_append, List.map_append]
    simp only [List.map_cons, List.map_nil]
    rw [reconstruct_concat, List.map_map, List.map_map]
    have hcg : (List.range ((l.length - ws) / st)).map
        (((fun x => x.take st) ∘ sliceAt l) ∘ fun k => (k * st, k * st + ws)) =
        (List.range ((l.length - ws) / st)).map
          (fun k => (l.drop (k * st)).take st) :=
      List.map_congr_left (fun k _ => window_take_step l (k * st) ws st h2)
    rw [hcg, flatten_take_chunks]
    have hlast : sliceAt l (((l.length - ws) / st) * st,
        ((l.length - ws) / st) * st + ws) =
        (l.drop (((l.length - ws) / st) * st)).take ws := by
      unfold sliceAt
      rw [List.drop_take]
      congr 1
      omega
    show l.take (((l.length - ws) / st) * st) ++
        sliceAt l (((l.length - ws) / st) * st,
          ((l.length - ws) / st) * st + ws) = l
    rw [hlast, ← List.take_add]
    have h7 : ((l.length - ws) / st) * st + ws = l.length := by omega
    rw [h7, List.take_length]
  · unfold windowBounds
    rw [if_neg hm, List.map_append]
    simp only [List.map_cons, List.map_nil]
    rw [reconstruct_concat]
    unfold fullBounds
    rw [List.map_map, List.map_map]
    have hcg : (List.range ((l.length - ws) / st + 1)).map
        (((fun x => x.take st) ∘ sliceAt l) ∘ fun k => (k * st, k * st + ws)) =
        (List.range ((l.length - ws) / st + 1)).map
          (fun k => (l.drop (k * st)).take st) :=
      List.map_congr_left (fun k _ => window_take_step l (k * st) ws st h2)
    rw [hcg, flatten_take_chunks]
    have hrem : sliceAt l (l.length - (ws - st) - l.length % ws, l.length) =
        l.drop (l.length - (ws - st) - l.length % ws) := by
      unfold sliceAt
      rw [List.take_length]
    rw [hrem]
    have h6 : ((l.length - ws) / st + 1) * st =
        ((l.length - ws) / st) * st + st := by ring
    have harith : l.length - (ws - st) - l.length % ws =
        ((l.length - ws) / st + 1) * st := by omega
    rw [harith, List.take_append_drop]

theorem c7_reconstruct_amended_witness :
    0 < 1 ∧ 1 ≤ 2 ∧ 2 ≤ (List.range 6).length ∧
    (List.range 6).length % 2 = ((List.range 6).length - 2) % 1 ∧
    (slidingWindowRun (List.range 6) ((2 : Nat) : Int) ((1 : Nat) : Int) =
      .ok ((windowBounds (List.range 6).length 2 1).map
        (sliceAt (List.range 6))) ∧
    reconstruct 1 ((windowBounds (List.range 6).length 2 1).map
      (sliceAt (List.range 6))) = List.range 6) :=
  ⟨by decide, by decide, by decide, by decide,
    c7_reconstruct_amended (List.range 6) 2 1 (by decide) (by decide)
      (by decide) (by decide)⟩

end Bff
